import Mathlib

/-!
Verification of the Hueter-MFC-Bridge server (src/server.ts).

The TypeScript source is shallowly embedded: JavaScript strings are
`List Char`, JSON/JS values are the inductive `JsVal` (with a distinct
`undefined` value, since property lookups can yield `undefined`), and the
external collaborators (the OpenAI call, `JSON.parse`, `fetch`, `String`,
the MFC listing call) are modelled as explicit parameters describing
their outcome, so that every route handler becomes a total function of
its request and of the outcomes of its remote calls.  Exceptions are
modelled with `Except Unit`; a `try/catch` in the source becomes a
`match` on that `Except`.
-/

set_option autoImplicit false
set_option maxRecDepth 10000

namespace Bridge

/-! ## JavaScript strings

A JS string is a `List Char`.  `trim` follows `String.prototype.trim`:
it strips whitespace and line terminators from both ends.  We model the
whitespace class by the common code points (space, tab, LF, CR, VT, FF,
NBSP, LINE SEPARATOR, PARAGRAPH SEPARATOR, BOM). -/

/-- The backtick character, used by the Markdown code fences. -/
def btick : Char := Char.ofNat 96

/-- The line-feed character searched for by `indexOf("\n")`. -/
def nl : Char := Char.ofNat 10

/-- JavaScript whitespace (the class removed by `String.prototype.trim`). -/
def isJsWs (c : Char) : Bool :=
  c == ' ' || c == Char.ofNat 9 || c == nl || c == Char.ofNat 13 ||
  c == Char.ofNat 11 || c == Char.ofNat 12 || c == Char.ofNat 160 ||
  c == Char.ofNat 8232 || c == Char.ofNat 8233 || c == Char.ofNat 65279

/-- Strip leading JS whitespace. -/
def trimL (s : List Char) : List Char := s.dropWhile isJsWs

/-- Strip trailing JS whitespace. -/
def trimR (s : List Char) : List Char := (s.reverse.dropWhile isJsWs).reverse

/-- JavaScript `String.prototype.trim`: strip whitespace from both ends. -/
def trim (s : List Char) : List Char := trimL (trimR s)

/-- Does the string start with a triple-backtick marker, as tested by
the `startsWith` call of the source? -/
def startsTicks : List Char → Bool
  | a :: b :: c :: _ => a == btick && b == btick && c == btick
  | _ => false

/-- Index of the first occurrence of character `c`
(`String.prototype.indexOf`, with `none` for `-1`). -/
def idxOf (c : Char) : List Char → Option Nat
  | [] => none
  | a :: as => if a = c then some 0 else (idxOf c as).map (· + 1)

/-- Index of the last occurrence of the triple-backtick marker
(`text.lastIndexOf` on the three-backtick string, `none` for `-1`). -/
def lastTicksIdx : List Char → Option Nat
  | [] => none
  | c :: cs =>
    match lastTicksIdx cs with
    | some i => some (i + 1)
    | none => if startsTicks (c :: cs) then some 0 else none

/-- Step of `cleanJsonText`: `const firstNewline = text.indexOf("\n");
if (firstNewline !== -1) text = text.slice(firstNewline + 1);`. -/
def dropFence (t : List Char) : List Char :=
  match idxOf nl t with
  | some i => t.drop (i + 1)
  | none => t

/-- Step of `cleanJsonText`: `const lastTicks = text.lastIndexOf(marker);
if (lastTicks !== -1) text = text.slice(0, lastTicks);`. -/
def dropClosing (t : List Char) : List Char :=
  match lastTicksIdx t with
  | some j => t.take j
  | none => t

/-- Embedding of `cleanJsonText` (src/server.ts lines 102-117): trim; if
the text starts with a fence marker, drop through the first newline (if
any) and truncate at the last fence marker (if any); trim again. -/
def cleanJsonText (raw : List Char) : List Char :=
  let t0 := trim raw
  if startsTicks t0 then trim (dropClosing (dropFence t0))
  else trim t0

/-! ### Lemmas about the string model -/

theorem trimL_cons_of_not_ws {c : Char} (s : List Char) (h : isJsWs c = false) :
    trimL (c :: s) = c :: s := by
  simp [trimL, List.dropWhile_cons, h]

theorem trimR_append_of_not_ws {c : Char} (s : List Char) (h : isJsWs c = false) :
    trimR (s ++ [c]) = s ++ [c] := by
  simp [trimR, List.dropWhile_cons, h]

theorem trimR_append_of_ws {c : Char} (s : List Char) (h : isJsWs c = true) :
    trimR (s ++ [c]) = trimR s := by
  simp [trimR, List.dropWhile_cons, h]

theorem drop_len_append {α : Type} (l₁ l₂ : List α) :
    (l₁ ++ l₂).drop l₁.length = l₂ := by
  induction l₁ with
  | nil => rfl
  | cons a t ih => simp [ih]

theorem take_len_append {α : Type} (l₁ l₂ : List α) :
    (l₁ ++ l₂).take l₁.length = l₁ := by
  induction l₁ with
  | nil => rfl
  | cons a t ih => simp [ih]

theorem idxOf_append (pre rest : List Char) {c : Char} (h : c ∉ pre) :
    idxOf c (pre ++ c :: rest) = some pre.length := by
  induction pre with
  | nil => simp [idxOf]
  | cons a t ih =>
    have ha : a ≠ c := fun hac => h (hac ▸ List.mem_cons_self a t)
    have ht : c ∉ t := fun hct => h (List.mem_cons_of_mem a hct)
    simp [idxOf, ha, ih ht]

/-- The three-backtick marker as a string. -/
def ticks : List Char := [btick, btick, btick]

theorem lastTicksIdx_payload (payload : List Char) :
    lastTicksIdx (payload ++ nl :: ticks) = some (payload.length + 1) := by
  induction payload with
  | nil => decide
  | cons a t ih => simp [lastTicksIdx, ih]

theorem dropFence_some {t : List Char} {i : Nat} (h : idxOf nl t = some i) :
    dropFence t = t.drop (i + 1) := by
  unfold dropFence; rw [h]

theorem dropFence_none {t : List Char} (h : idxOf nl t = none) :
    dropFence t = t := by
  unfold dropFence; rw [h]

theorem dropClosing_some {t : List Char} {j : Nat} (h : lastTicksIdx t = some j) :
    dropClosing t = t.take j := by
  unfold dropClosing; rw [h]

theorem trim_append_nl (payload : List Char) :
    trim (payload ++ [nl]) = trim payload := by
  unfold trim
  rw [trimR_append_of_ws payload (by decide)]

/-- The trimmed fenced text is itself: it starts and ends with a backtick. -/
theorem trim_fenced (tag payload : List Char) :
    trim (ticks ++ tag ++ nl :: payload ++ nl :: ticks)
      = ticks ++ tag ++ nl :: payload ++ nl :: ticks := by
  have hR : trimR (ticks ++ tag ++ nl :: payload ++ nl :: ticks)
      = ticks ++ tag ++ nl :: payload ++ nl :: ticks := by
    have hsp : ticks ++ tag ++ nl :: payload ++ nl :: ticks
        = (ticks ++ tag ++ nl :: payload ++ [nl, btick, btick]) ++ [btick] := by
      simp [ticks]
    rw [hsp, trimR_append_of_not_ws _ (by decide)]
  have hc : ticks ++ tag ++ nl :: payload ++ nl :: ticks
      = btick :: (btick :: btick :: (tag ++ nl :: payload ++ nl :: ticks)) := by
    simp [ticks]
  have hL : trimL (ticks ++ tag ++ nl :: payload ++ nl :: ticks)
      = ticks ++ tag ++ nl :: payload ++ nl :: ticks := by
    rw [hc, trimL_cons_of_not_ws _ (by decide)]
  unfold trim
  rw [hR, hL]

theorem startsTicks_fenced (tag payload : List Char) :
    startsTicks (ticks ++ tag ++ nl :: payload ++ nl :: ticks) = true := by
  have hc : ticks ++ tag ++ nl :: payload ++ nl :: ticks
      = btick :: (btick :: btick :: (tag ++ nl :: payload ++ nl :: ticks)) := by
    simp [ticks]
  rw [hc]
  simp [startsTicks]

/-- Full behaviour of the sanitizer on a fenced payload: for any language
tag free of line breaks, the fences are stripped and the payload is
returned trimmed. -/
theorem cleanJsonText_fence (tag payload : List Char) (htag : nl ∉ tag) :
    cleanJsonText (ticks ++ tag ++ nl :: payload ++ nl :: ticks) = trim payload := by
  have hmem : nl ∉ ticks ++ tag := by
    intro h
    rcases List.mem_append.mp h with h1 | h2
    · exact absurd h1 (by decide)
    · exact htag h2
  have hsplit : ticks ++ tag ++ nl :: payload ++ nl :: ticks
      = (ticks ++ tag) ++ nl :: (payload ++ nl :: ticks) := by simp
  have hidx : idxOf nl (ticks ++ tag ++ nl :: payload ++ nl :: ticks)
      = some (ticks ++ tag).length := by
    rw [hsplit]
    exact idxOf_append (ticks ++ tag) (payload ++ nl :: ticks) hmem
  have hdrop : (ticks ++ tag ++ nl :: payload ++ nl :: ticks).drop ((ticks ++ tag).length + 1)
      = payload ++ nl :: ticks := by
    have hsp2 : ticks ++ tag ++ nl :: payload ++ nl :: ticks
        = ((ticks ++ tag) ++ [nl]) ++ (payload ++ nl :: ticks) := by simp
    have hlen : (ticks ++ tag).length + 1 = ((ticks ++ tag) ++ [nl]).length := by
      simp; omega
    rw [hsp2, hlen, drop_len_append]
  have htake : (payload ++ nl :: ticks).take (payload.length + 1) = payload ++ [nl] := by
    have hsp3 : payload ++ nl :: ticks = (payload ++ [nl]) ++ ticks := by simp
    have hlen2 : payload.length + 1 = (payload ++ [nl]).length := by simp
    rw [hsp3, hlen2, take_len_append]
  simp only [cleanJsonText]
  rw [trim_fenced, startsTicks_fenced, if_pos rfl,
    dropFence_some hidx, hdrop, dropClosing_some (lastTicksIdx_payload payload),
    htake, trim_append_nl]

/-- Behaviour of the sanitizer when the trimmed input starts with a fence
marker but contains no line break: the opening-fence removal is skipped
and the text is only truncated at the last marker and trimmed. -/
theorem cleanJsonText_no_newline (raw : List Char) (j : Nat)
    (hs : startsTicks (trim raw) = true)
    (hn : idxOf nl (trim raw) = none)
    (hj : lastTicksIdx (trim raw) = some j) :
    cleanJsonText raw = trim ((trim raw).take j) := by
  simp only [cleanJsonText]
  rw [hs, if_pos rfl, dropFence_none hn, dropClosing_some hj]

/-! ## JavaScript values

`JsVal` models the values flowing through the pipeline: everything
`JSON.parse` can produce, plus `undefined` (the result of a missing
property).  Numbers are modelled as integers (no claim depends on
non-integral numbers). -/

inductive JsVal where
  | undefined
  | null
  | bool (b : Bool)
  | num (n : Int)
  | str (s : List Char)
  | arr (xs : List JsVal)
  | obj (fields : List (String × JsVal))

/-- JavaScript truthiness (`!v` is `jsTruthy v = false`). -/
def jsTruthy : JsVal → Bool
  | .undefined => false
  | .null => false
  | .bool b => b
  | .num n => n != 0
  | .str s => s != []
  | .arr _ => true
  | .obj _ => true

/-- First binding of a key in an object field list (objects produced by
`JSON.parse` have unique keys; lookups read the first binding). -/
def lookupField : List (String × JsVal) → String → Option JsVal
  | [], _ => none
  | (k, v) :: fs, key => if k = key then some v else lookupField fs key

/-- Property write on an object field list: overwrite the binding if the
key exists, append it otherwise (JS property assignment). -/
def setField : List (String × JsVal) → String → JsVal → List (String × JsVal)
  | [], key, v => [(key, v)]
  | (k, w) :: fs, key, v =>
    if k = key then (key, v) :: fs else (k, w) :: setField fs key v

/-- Named-property read on a value that is not `null`/`undefined`: objects
look the key up (missing keys give `undefined`); primitives and arrays
have none of the named properties this program reads, so they give
`undefined`. -/
def jsGetPropD : JsVal → String → JsVal
  | .obj fs, k => (lookupField fs k).getD .undefined
  | _, _ => .undefined

/-- Named-property read `v.k`: throws (a `TypeError`) when the base is
`null` or `undefined`, otherwise reads as `jsGetPropD`. -/
def jsGetProp : JsVal → String → Except Unit JsVal
  | .undefined, _ => .error ()
  | .null, _ => .error ()
  | v, k => .ok (jsGetPropD v k)

/-- Property assignment `v.k = x`: on an object it writes the field; on an
array it succeeds (the expando property is not observable by this
program, so the array is kept); on primitives, `null` and `undefined` it
throws (the compiled code runs in strict mode). -/
def jsSetProp : JsVal → String → JsVal → Option JsVal
  | .obj fs, k, x => some (.obj (setField fs k x))
  | .arr xs, _, _ => some (.arr xs)
  | _, _, _ => none

/-- Optional index access `v?.[0]`: `undefined` when the base is nullish;
first element of an array; key `"0"` of an object; first character of a
string; `undefined` otherwise. -/
def optIndex0 : JsVal → JsVal
  | .undefined => .undefined
  | .null => .undefined
  | .arr [] => .undefined
  | .arr (x :: _) => x
  | .obj fs => (lookupField fs "0").getD .undefined
  | .str [] => .undefined
  | .str (c :: _) => .str [c]
  | .bool _ => .undefined
  | .num _ => .undefined

/-! ## ResponseTextExtractor -/

/-- Body of `extractTextFromResponse` (src/server.ts lines 72-99) before
its `try/catch`: walk `completion.output?.[0].content?.[0]`, accept a
direct string `text` (case 1) or an `output_text` item with a string
`text.value` (case 2), and give `null` otherwise.  A thrown `TypeError`
is an `Except.error`. -/
def extractTextCore (completion : JsVal) : Except Unit (Option (List Char)) :=
  match jsGetProp completion "output" with
  | .error e => .error e
  | .ok outv =>
    let firstOutput := optIndex0 outv
    if jsTruthy firstOutput = false then .ok none
    else
      match jsGetProp firstOutput "content" with
      | .error e => .error e
      | .ok contv =>
        let firstContent := optIndex0 contv
        if jsTruthy firstContent = false then .ok none
        else
          match jsGetProp firstContent "text" with
          | .error e => .error e
          | .ok t =>
            match t with
            | .str s => .ok (some s)
            | _ =>
              match jsGetProp firstContent "type" with
              | .error e => .error e
              | .ok ty =>
                match ty with
                | .str tys =>
                  if tys = "output_text".toList ∧ jsTruthy t = true then
                    match jsGetProp t "value" with
                    | .error e => .error e
                    | .ok tv =>
                      match tv with
                      | .str s => .ok (some s)
                      | _ => .ok none
                  else .ok none
                | _ => .ok none

/-- Function `extractTextFromResponse`: the `try/catch` converts any
structural access failure into the `null` sentinel. -/
def extractTextFromResponse (completion : JsVal) : Option (List Char) :=
  match extractTextCore completion with
  | .ok r => r
  | .error _ => none

/-! ## TaskStructurer (`interpretTaskWithLio`) -/

/-- The `IncomingTask` interface (src/server.ts lines 26-33). -/
structure IncomingTask where
  id : List Char
  state : List Char
  createdAt : Int
  updatedAt : Int
  author : List Char
  rawText : List Char

/-- The `try` block around `JSON.parse` (src/server.ts lines 188-200)
after a successful parse: `if (!parsed.originalTaskId) parsed.originalTaskId
= task.id; return parsed;` — any throw (reading a property of `null`,
assigning to a primitive) is caught and becomes `null`. -/
def injectOriginalTaskId (task : IncomingTask) (parsed : JsVal) : Option JsVal :=
  match jsGetProp parsed "originalTaskId" with
  | .error _ => none
  | .ok v =>
    if jsTruthy v then some parsed
    else
      match jsSetProp parsed "originalTaskId" (.str task.id) with
      | none => none
      | some p => some p

/-- Embedding of `interpretTaskWithLio` (src/server.ts lines 119-201).
External collaborators are parameters: `hasClient` is whether the OpenAI
client was initialised (`OPENAI_API_KEY` present); `callOutcome` is the
outcome of the awaited `openai.responses.create` call (`Except.error` =
the promise rejected, which this function does not catch); `jsonParse`
models `JSON.parse` (`none` = it threw). -/
def interpretTaskWithLio (hasClient : Bool) (jsonParse : List Char → Option JsVal)
    (callOutcome : Except Unit JsVal) (task : IncomingTask) :
    Except Unit (Option JsVal) :=
  if hasClient = false then .ok none
  else
    match callOutcome with
    | .error e => .error e
    | .ok completion =>
      match extractTextFromResponse completion with
      | none => .ok none
      | some rawText =>
        if rawText = [] then .ok none
        else
          match jsonParse (cleanJsonText rawText) with
          | none => .ok none
          | some parsed => .ok (injectOriginalTaskId task parsed)

/-! ## The StructuredHueterTask shape (src/server.ts lines 35-54)

These predicates are the specification side of claims C1/C2: they state
when a JSON value satisfies the `StructuredHueterTask` interface. -/

/-- The value is a JSON string. -/
def isStr : JsVal → Bool
  | .str _ => true
  | _ => false

/-- The value is an array of JSON strings (`string[]`). -/
def isStrArr : JsVal → Bool
  | .arr xs => xs.all isStr
  | _ => false

/-- The value is one of the `priority` literals. -/
def isPriorityVal : JsVal → Bool
  | .str s => s == "LOW".toList || s == "MEDIUM".toList ||
      s == "HIGH".toList || s == "CRITICAL".toList
  | _ => false

/-- The value is one of the `RecommendedNextStep` literals. -/
def isNextStepVal : JsVal → Bool
  | .str s => s == "SEND_TO_HUETER".toList || s == "ASK_HUMAN_FOR_INFO".toList ||
      s == "NEEDS_DESIGN_DECISION".toList || s == "JUST_INFORMATION".toList ||
      s == "UNKNOWN".toList
  | _ => false

/-- The key is present and its value satisfies `p`. -/
def checkField (fs : List (String × JsVal)) (k : String) (p : JsVal → Bool) : Bool :=
  match lookupField fs k with
  | some v => p v
  | none => false

/-- The key is absent, or present with a value satisfying `p`
(an optional field, such as `notesForHuman?`). -/
def optField (fs : List (String × JsVal)) (k : String) (p : JsVal → Bool) : Bool :=
  match lookupField fs k with
  | some v => p v
  | none => true

/-- The fields of `StructuredHueterTask` other than `originalTaskId`. -/
def schemaRest (fs : List (String × JsVal)) : Bool :=
  checkField fs "goal" isStr &&
  checkField fs "contextSummary" isStr &&
  checkField fs "knowledgeRequirements" isStrArr &&
  checkField fs "subtasks" isStrArr &&
  checkField fs "constraints" isStrArr &&
  checkField fs "successCriteria" isStrArr &&
  checkField fs "priority" isPriorityVal &&
  checkField fs "recommendedNextStep" isNextStepVal &&
  checkField fs "notesForHueter" isStr &&
  optField fs "notesForHuman" isStr

/-- The value satisfies the full `StructuredHueterTask` interface. -/
def isStructuredHueterTask : JsVal → Bool
  | .obj fs => checkField fs "originalTaskId" isStr && schemaRest fs
  | _ => false

/-- The value is an object matching the interface except that
`originalTaskId` may be absent (the invariant injects it). -/
def isSchemaExceptId : JsVal → Bool
  | .obj fs => optField fs "originalTaskId" isStr && schemaRest fs
  | _ => false

/-! ## ForwardingClient (`forwardStructuredTaskToHueter`) -/

/-- Outcome of the outbound `fetch` to the Hueter core: either a response
with a status code, or a rejected promise (transport-level error). -/
inductive FetchOutcome where
  | response (status : Nat)
  | reject

/-- The log lines `forwardStructuredTaskToHueter` can emit, abstracted as
an inductive (the only observable side effect of the operation). -/
inductive ForwardLog where
  | notOk (originalTaskId : JsVal) (status : Nat)
  | sent (originalTaskId : JsVal)
  | sendFailed

/-- Fetch API `res.ok`: status in the range 200-299. -/
def resOk (status : Nat) : Bool := 200 ≤ status && status ≤ 299

/-- The `try` block of `forwardStructuredTaskToHueter` (src/server.ts
lines 210-239): await the `fetch`; a rejection is a thrown error; a
non-ok status logs and returns; an ok status logs success. -/
def forwardAttempt (structured : JsVal) (outcome : FetchOutcome) :
    Except Unit (List ForwardLog) :=
  match outcome with
  | .reject => .error ()
  | .response status =>
    if resOk status = false then
      .ok [.notOk (jsGetPropD structured "originalTaskId") status]
    else
      .ok [.sent (jsGetPropD structured "originalTaskId")]

/-- Function `forwardStructuredTaskToHueter`: the surrounding `catch`
turns a transport error into a log line, so the operation always
completes normally. -/
def forwardStructuredTaskToHueter (structured : JsVal) (outcome : FetchOutcome) :
    List ForwardLog :=
  match forwardAttempt structured outcome with
  | .ok logs => logs
  | .error _ => [.sendFailed]

/-! ## IngestionEndpoint (`POST /tasks/from-mfc`) -/

/-- The `task` binding of `const { task } = req.body || {};`. -/
def taskOfBody (body : JsVal) : JsVal :=
  jsGetPropD (if jsTruthy body then body else .obj []) "task"

/-- The 400 response body carrying the error message. -/
def missingTaskBody : JsVal :=
  .obj [("error", .str "Feld task fehlt im Body.".toList)]

/-- The 200 acknowledgement body
`{ok: true, received: true, structuredTask: v}`. -/
def ackBody (structuredTask : JsVal) : JsVal :=
  .obj [("ok", .bool true), ("received", .bool true),
    ("structuredTask", structuredTask)]

/-- Embedding of the `POST /tasks/from-mfc` handler (src/server.ts lines
250-302), responses as status-code/body pairs.  `structureOutcome` is the
outcome of the awaited `interpretTaskWithLio` call; the `try/catch` of
the handler turns a thrown error into the `null` case. -/
def tasksFromMfc (body : JsVal) (structureOutcome : Except Unit (Option JsVal)) :
    Nat × JsVal :=
  if jsTruthy (taskOfBody body) = false then (400, missingTaskBody)
  else
    match structureOutcome with
    | .error _ => (200, ackBody .null)
    | .ok none => (200, ackBody .null)
    | .ok (some structured) => (200, ackBody structured)

/-- The `POST /tasks/from-mfc` handler together with the fire-and-forget
forward: the response pair, plus the forwarding logs.  The forward is
only triggered when a structured task was produced, and its outcome
`fetchOutcome` is not consulted by the response. -/
def tasksFromMfcHandler (body : JsVal) (structureOutcome : Except Unit (Option JsVal))
    (fetchOutcome : FetchOutcome) : (Nat × JsVal) × List ForwardLog :=
  if jsTruthy (taskOfBody body) = false then ((400, missingTaskBody), [])
  else
    match structureOutcome with
    | .error _ => ((200, ackBody .null), [])
    | .ok none => ((200, ackBody .null), [])
    | .ok (some structured) =>
      ((200, ackBody structured), forwardStructuredTaskToHueter structured fetchOutcome)

/-! ## `GET /workflows` (second server, src/server.ts lines 427-453) -/

/-- The `WorkflowDef` interface. -/
structure WorkflowDef where
  id : List Char
  label : List Char
  description : List Char

/-- The built-in fallback list (src/server.ts lines 349-361). -/
def fallbackWorkflows : List WorkflowDef :=
  [⟨"dev-start".toList, "Dev-Start (MFC)".toList,
      "Startet die Dev-Umgebung für Meventa Flight Control.".toList⟩,
    ⟨"hueter-dev-session".toList, "Hüter-Dev-Session".toList,
      "Geführte Session, um an Hüter / Meventa zu entwickeln (Planung + 1 Fokus-Aufgabe).".toList⟩]

/-- Outcome of `httpRequestToMfc("GET", "/api/workflows")`: the request
errored, the body was empty (resolves `null`), the body failed to parse
(rejects), or it parsed to a JSON value. -/
inductive MfcOutcome where
  | transportError
  | emptyBody
  | parseError
  | parsed (v : JsVal)

/-- One element of the `mfcData.workflows.map(...)` call, parameterised
by the JavaScript `String(...)` conversion. -/
def mapWorkflow (toStr : JsVal → List Char) (w : JsVal) : WorkflowDef :=
  { id := toStr (jsGetPropD w "id")
    label := toStr (if jsTruthy (jsGetPropD w "label") then jsGetPropD w "label"
      else jsGetPropD w "id")
    description := if jsTruthy (jsGetPropD w "description")
      then toStr (jsGetPropD w "description") else [] }

/-- The `.map` over the workflows array; reading `w.id` of a nullish
element throws, which `none` records. -/
def mapWorkflows (toStr : JsVal → List Char) : List JsVal → Option (List WorkflowDef)
  | [] => some []
  | w :: ws =>
    match w with
    | .undefined => none
    | .null => none
    | _ => (mapWorkflows toStr ws).map (mapWorkflow toStr w :: ·)

/-- Embedding of the `GET /workflows` handler: any failure — transport
error, empty body, parse error, falsy data, `workflows` not an array, or
a throw while mapping — is caught and answered with the fallback list. -/
def getWorkflowsRoute (toStr : JsVal → List Char) : MfcOutcome → List WorkflowDef
  | .transportError => fallbackWorkflows
  | .emptyBody => fallbackWorkflows
  | .parseError => fallbackWorkflows
  | .parsed v =>
    if jsTruthy v = false then fallbackWorkflows
    else
      match jsGetPropD v "workflows" with
      | .arr ws =>
        match mapWorkflows toStr ws with
        | some defs => defs
        | none => fallbackWorkflows
      | _ => fallbackWorkflows

/-! ## Run registry (second server, src/server.ts lines 324-499) -/

/-- The `StepState` union, also used as the `Run.status` union. -/
inductive StepState where
  | pending
  | running
  | done
  | error
deriving DecidableEq

/-- The `RunStep` interface. -/
structure RunStep where
  id : List Char
  state : StepState

/-- The `Run` interface. -/
structure Run where
  runId : List Char
  workflowId : List Char
  status : StepState
  startedAt : List Char
  finishedAt : Option (List Char)
  steps : List RunStep

/-- The call replacing every colon and dot of the timestamp by a dash
(a global regex replace in the source). -/
def sanitizeTimestamp (now : List Char) : List Char :=
  now.map fun c => if c = ':' ∨ c = '.' then '-' else c

/-- The run id template `run-<sanitized timestamp>-<workflow id>`. -/
def mkRunId (now id : List Char) : List Char :=
  "run-".toList ++ sanitizeTimestamp now ++ "-".toList ++ id

/-- Embedding of the `POST /workflows/:id/start` handler (src/server.ts
lines 457-481).  The registry is a map from run ids to runs; `now` is the
ISO timestamp of the wall clock.  Returns the updated registry, the
status code and the created run. -/
def startWorkflowRoute (runs : List Char → Option Run) (id now : List Char) :
    (List Char → Option Run) × Nat × Run :=
  let runId := mkRunId now id
  let run : Run :=
    { runId := runId
      workflowId := id
      status := .running
      startedAt := now
      finishedAt := none
      steps := [⟨id ++ "-step-1".toList, .running⟩, ⟨id ++ "-step-2".toList, .pending⟩] }
  (fun k => if k = runId then some run else runs k, 202, run)

/-- Property names inherited by every plain object from
`Object.prototype`.  The registry is a plain object literal, so an index
read with one of these keys and no own binding yields the inherited
member (a function, or the prototype object for the two-underscore proto
accessor) — a truthy value, never `undefined`. -/
def objectProtoKeys : List (List Char) :=
  ["constructor".toList, "hasOwnProperty".toList, "isPrototypeOf".toList,
    "propertyIsEnumerable".toList, "toLocaleString".toList, "toString".toList,
    "valueOf".toList, "__proto__".toList, "__defineGetter__".toList,
    "__defineSetter__".toList, "__lookupGetter__".toList, "__lookupSetter__".toList]

/-- Result of the index read on the registry object: an own stored run, a
truthy member inherited from `Object.prototype`, or `undefined`. -/
inductive RunLookup where
  | own (r : Run)
  | inheritedMember
  | absent

/-- The index read on the plain-object registry: own properties (the
stored runs) shadow the prototype; a key with no own binding hits
`Object.prototype` when it is one of its member names, and gives
`undefined` otherwise. -/
def lookupRun (runs : List Char → Option Run) (key : List Char) : RunLookup :=
  match runs key with
  | some r => .own r
  | none => if key ∈ objectProtoKeys then .inheritedMember else .absent

/-- Response body of `GET /runs/:runId`: the run, the serialization of an
inherited prototype member, or the 404 body carrying the error message
and the requested run id. -/
inductive RunRouteBody where
  | run (r : Run)
  | inheritedMember
  | notFound (error : List Char) (runId : List Char)

/-- Embedding of the `GET /runs/:runId` handler (src/server.ts lines
485-494): the falsiness test on the looked-up value only fails for
`undefined`; an inherited prototype member is truthy and is sent with
status 200. -/
def getRunRoute (runs : List Char → Option Run) (runId : List Char) :
    Nat × RunRouteBody :=
  match lookupRun runs runId with
  | .own r => (200, .run r)
  | .inheritedMember => (200, .inheritedMember)
  | .absent => (404, .notFound "Run not found".toList runId)

/-! ### Lemmas about object field lists -/

theorem lookupField_setField_self (fs : List (String × JsVal)) (k : String) (v : JsVal) :
    lookupField (setField fs k v) k = some v := by
  induction fs with
  | nil => simp [setField, lookupField]
  | cons p t ih =>
    obtain ⟨k0, w⟩ := p
    by_cases h : k0 = k
    · simp [setField, h, lookupField]
    · simp [setField, h, lookupField, ih]

theorem lookupField_setField_ne (fs : List (String × JsVal)) (k k' : String) (v : JsVal)
    (h : k' ≠ k) : lookupField (setField fs k v) k' = lookupField fs k' := by
  induction fs with
  | nil => simp [setField, lookupField, Ne.symm h]
  | cons p t ih =>
    obtain ⟨k0, w⟩ := p
    by_cases h0 : k0 = k
    · subst h0
      simp [setField, lookupField, Ne.symm h]
    · simp [setField, h0, lookupField, ih]

theorem checkField_setField_ne (fs : List (String × JsVal)) (k k' : String) (v : JsVal)
    (p : JsVal → Bool) (h : k' ≠ k) :
    checkField (setField fs k v) k' p = checkField fs k' p := by
  simp [checkField, lookupField_setField_ne fs k k' v h]

theorem optField_setField_ne (fs : List (String × JsVal)) (k k' : String) (v : JsVal)
    (p : JsVal → Bool) (h : k' ≠ k) :
    optField (setField fs k v) k' p = optField fs k' p := by
  simp [optField, lookupField_setField_ne fs k k' v h]

theorem schemaRest_setField_id (fs : List (String × JsVal)) (v : JsVal) :
    schemaRest (setField fs "originalTaskId" v) = schemaRest fs := by
  unfold schemaRest
  rw [checkField_setField_ne fs "originalTaskId" "goal" v isStr (by decide),
    checkField_setField_ne fs "originalTaskId" "contextSummary" v isStr (by decide),
    checkField_setField_ne fs "originalTaskId" "knowledgeRequirements" v isStrArr (by decide),
    checkField_setField_ne fs "originalTaskId" "subtasks" v isStrArr (by decide),
    checkField_setField_ne fs "originalTaskId" "constraints" v isStrArr (by decide),
    checkField_setField_ne fs "originalTaskId" "successCriteria" v isStrArr (by decide),
    checkField_setField_ne fs "originalTaskId" "priority" v isPriorityVal (by decide),
    checkField_setField_ne fs "originalTaskId" "recommendedNextStep" v isNextStepVal (by decide),
    checkField_setField_ne fs "originalTaskId" "notesForHueter" v isStr (by decide),
    optField_setField_ne fs "originalTaskId" "notesForHuman" v isStr (by decide)]

/-- Setting `originalTaskId` to a string on a value that matched the
schema up to that field produces a fully schema-valid value. -/
theorem isStructuredHueterTask_setField (fs : List (String × JsVal)) (x : List Char)
    (hrest : schemaRest fs = true) :
    isStructuredHueterTask (.obj (setField fs "originalTaskId" (.str x))) = true := by
  simp only [isStructuredHueterTask, Bool.and_eq_true]
  constructor
  · simp [checkField, lookupField_setField_self, isStr]
  · rw [schemaRest_setField_id]
    exact hrest

/-! ## Concrete sample values used by witnesses and counterexamples -/

/-- An opening brace, written by code point to keep it out of string
literals. -/
def braceOpen : Char := Char.ofNat 123

/-- A closing brace, written by code point. -/
def braceClose : Char := Char.ofNat 125

/-- The two-character JSON text of an empty object. -/
def emptyObjText : List Char := [braceOpen, braceClose]

/-- A sample incoming task. -/
def sampleTask : IncomingTask :=
  { id := "task-1".toList
    state := "open".toList
    createdAt := 0
    updatedAt := 0
    author := "marcel".toList
    rawText := "Bitte das Deployment vorbereiten".toList }

/-- A provider envelope in shape (a): `output[0].content[0].text` is the
given string. -/
def envelopeWithText (s : List Char) : JsVal :=
  .obj [("output", .arr [.obj [("content", .arr [.obj [("text", .str s)]])]])]

/-- Models the external `JSON.parse` on the single input consisting of an
empty JSON object, on which the real function returns an empty object;
it throws (`none`) on every other input. -/
def jsonParseEmptyObj (s : List Char) : Option JsVal :=
  if s = emptyObjText then some (.obj []) else none

/-- A sample ISO timestamp as produced by `new Date().toISOString()`. -/
def devNow : List Char := "2026-10-11T12:00:00.000Z".toList

/-! ## Claims -/

/-- Claim C3, counterexample: wrapping the payload of a single space and
the letter a in a json-tagged fence and sanitizing does not give back the
payload (the sanitizer trims it to just the letter a). -/
theorem claim_C3_counterexample :
    cleanJsonText (ticks ++ "json".toList ++ nl :: " a".toList ++ nl :: ticks)
        = "a".toList ∧
    cleanJsonText (ticks ++ "json".toList ++ nl :: " a".toList ++ nl :: ticks)
        ≠ " a".toList := by
  constructor
  · decide
  · decide

/-- Claim C3 (amended): for every payload and every language tag free of
line breaks, sanitizing the fenced payload yields the trimmed payload —
byte-identical to the unfenced payload exactly when that payload carries
no leading or trailing whitespace. -/
theorem claim_C3 (tag payload : List Char) (htag : nl ∉ tag) :
    cleanJsonText (ticks ++ tag ++ nl :: payload ++ nl :: ticks) = trim payload :=
  cleanJsonText_fence tag payload htag

/-- Witness for claim C3 at the tag json and the payload consisting of
the letter x. -/
theorem claim_C3_witness :
    cleanJsonText (ticks ++ "json".toList ++ nl :: "x".toList ++ nl :: ticks)
      = trim "x".toList :=
  claim_C3 ("json".toList) ("x".toList) (by decide)

/-- Claim C10: when the trimmed input begins with a fence marker but has
no line break, the opening fence is not removed; the output is the
trimmed input truncated at the last fence-marker occurrence and trimmed
again. -/
theorem claim_C10 (raw : List Char) (j : Nat)
    (hs : startsTicks (trim raw) = true)
    (hn : idxOf nl (trim raw) = none)
    (hj : lastTicksIdx (trim raw) = some j) :
    cleanJsonText raw = trim ((trim raw).take j) :=
  cleanJsonText_no_newline raw j hs hn hj

/-- Witness for claim C10: the bare fence marker sanitizes to the empty
string, and a one-line fenced object sanitizes to a string still starting
with the fence marker. -/
theorem claim_C10_witness :
    cleanJsonText ticks = [] ∧
    cleanJsonText ("```json".toList ++ emptyObjText ++ ticks)
        = "```json".toList ++ emptyObjText ∧
    startsTicks ("```json".toList ++ emptyObjText) = true := by
  refine ⟨?_, ?_, by decide⟩
  · exact (claim_C10 ticks 0 (by decide) (by decide) (by decide)).trans (by decide)
  · exact (claim_C10 ("```json".toList ++ emptyObjText ++ ticks) 9
      (by decide) (by decide) (by decide)).trans (by decide)

/-- Claim C4, counterexample: the id toString is never stored (the
registry is empty), yet its get answers 200, not 404 — the plain-object
registry lookup hits the member inherited from `Object.prototype`, which
is truthy, so the not-found branch is not taken. -/
theorem claim_C4_counterexample :
    (fun _ => none : List Char → Option Run) ("toString".toList) = none ∧
    (getRunRoute (fun _ => none) ("toString".toList)).1 = 200 := by
  exact ⟨rfl, by decide⟩

/-- Claim C4 (amended): starting a workflow returns a 202 run with the
two-step plan in states running and pending, status running, null
finishedAt, and stores it so that an immediate get of its run id returns
exactly that run; getting an id that is not stored returns 404 echoing
the id, unless the id is one of the `Object.prototype` member names
(such as toString or constructor), for which the plain-object registry
lookup yields an inherited truthy value and the route answers 200. -/
theorem claim_C4 (runs : List Char → Option Run) (wid now : List Char) :
    (startWorkflowRoute runs wid now).2.2.steps
        = [⟨wid ++ "-step-1".toList, .running⟩, ⟨wid ++ "-step-2".toList, .pending⟩] ∧
    (startWorkflowRoute runs wid now).2.2.status = .running ∧
    (startWorkflowRoute runs wid now).2.2.finishedAt = none ∧
    (startWorkflowRoute runs wid now).2.1 = 202 ∧
    getRunRoute (startWorkflowRoute runs wid now).1 (startWorkflowRoute runs wid now).2.2.runId
        = (200, .run (startWorkflowRoute runs wid now).2.2) ∧
    (∀ rid, runs rid = none → rid ∉ objectProtoKeys →
      getRunRoute runs rid = (404, .notFound "Run not found".toList rid)) ∧
    ∀ rid, runs rid = none → rid ∈ objectProtoKeys →
      getRunRoute runs rid = (200, .inheritedMember) := by
  refine ⟨rfl, rfl, rfl, rfl, ?_, ?_, ?_⟩
  · simp [startWorkflowRoute, getRunRoute, lookupRun]
  · intro rid h hp
    simp [getRunRoute, lookupRun, h, hp]
  · intro rid h hp
    simp [getRunRoute, lookupRun, h, hp]

/-- Witness for claim C4 at the workflow id dev-start on an empty
registry, including the 404 for an id that was never stored and is not a
prototype member name. -/
theorem claim_C4_witness :
    (startWorkflowRoute (fun _ => none) ("dev-start".toList) devNow).2.2.steps
        = [⟨"dev-start".toList ++ "-step-1".toList, .running⟩,
            ⟨"dev-start".toList ++ "-step-2".toList, .pending⟩] ∧
    getRunRoute (fun _ => none) ("does-not-exist".toList)
        = (404, .notFound "Run not found".toList ("does-not-exist".toList)) := by
  have h := claim_C4 (fun _ => none) ("dev-start".toList) devNow
  exact ⟨h.1, h.2.2.2.2.2.1 ("does-not-exist".toList) rfl (by decide)⟩

/-- The structured-task value placed in the acknowledgement: the task on
success, JSON null when structuring failed or threw. -/
def structuredOrNull : Except Unit (Option JsVal) → JsVal
  | .error _ => .null
  | .ok none => .null
  | .ok (some s) => s

/-- Claim C5, counterexample: a body whose task field is present but
carries the value false is answered with 400, although the claim says 400
happens exactly when the field is absent. -/
theorem claim_C5_counterexample :
    (tasksFromMfc (.obj [("task", .bool false)]) (.ok none)).1 = 400 ∧
    lookupField [("task", .bool false)] "task" = some (.bool false) := by
  exact ⟨rfl, rfl⟩

/-- Claim C5 (amended): the ingestion endpoint responds 400 exactly when
the task field of the body is absent or JS-falsy; otherwise it responds
200 with ok, received and the structured task, where a structuring
exception is treated as the null case, so an internal structuring failure
never produces a non-200 response. -/
theorem claim_C5 (body : JsVal) (outcome : Except Unit (Option JsVal)) :
    ((tasksFromMfc body outcome).1 = 400 ↔ jsTruthy (taskOfBody body) = false) ∧
    (jsTruthy (taskOfBody body) = true →
      tasksFromMfc body outcome = (200, ackBody (structuredOrNull outcome))) := by
  unfold tasksFromMfc
  cases h : jsTruthy (taskOfBody body) with
  | false =>
    refine ⟨by simp, ?_⟩
    intro hc
    exact absurd hc (by simp)
  | true =>
    refine ⟨?_, ?_⟩
    · simp only [Bool.true_eq_false, if_false]
      cases outcome with
      | error e => simp [structuredOrNull]
      | ok r => cases r <;> simp [structuredOrNull]
    · intro _
      simp only [Bool.true_eq_false, if_false]
      cases outcome with
      | error e => rfl
      | ok r => cases r <;> rfl

/-- Witness for claim C5 at a body carrying a truthy task and a
structuring outcome of none. -/
theorem claim_C5_witness :
    tasksFromMfc (.obj [("task", .obj [])]) (.ok none) = (200, ackBody .null) :=
  (claim_C5 (.obj [("task", .obj [])]) (.ok none)).2 rfl

/-- Claim C6: when the provider credential is absent (the client was not
initialised), structuring returns the none value no matter what the
remote call would have produced — the result is independent of the call
outcome and of the parse function. -/
theorem claim_C6 (jsonParse : List Char → Option JsVal) (callOutcome : Except Unit JsVal)
    (task : IncomingTask) :
    interpretTaskWithLio false jsonParse callOutcome task = .ok none := rfl

/-- Claim C7: the response of the ingestion endpoint is computed without
consulting the forward outcome — for any two downstream outcomes the
response is identical, and equals the response of the handler without
forwarding; the forward itself always completes normally with only log
lines as output (its catch converts a transport error into a log). -/
theorem claim_C7 (body : JsVal) (structureOutcome : Except Unit (Option JsVal))
    (fo fo' : FetchOutcome) :
    (tasksFromMfcHandler body structureOutcome fo).1
        = (tasksFromMfcHandler body structureOutcome fo').1 ∧
    (tasksFromMfcHandler body structureOutcome fo).1 = tasksFromMfc body structureOutcome ∧
    ∀ s : JsVal, forwardStructuredTaskToHueter s fo =
      match forwardAttempt s fo with
      | .ok logs => logs
      | .error _ => [.sendFailed] := by
  refine ⟨?_, ?_, fun s => rfl⟩
  · unfold tasksFromMfcHandler
    cases h : jsTruthy (taskOfBody body)
    · simp
    · simp only [Bool.true_eq_false, if_false]
      cases structureOutcome with
      | error e => rfl
      | ok r => cases r <;> rfl
  · unfold tasksFromMfcHandler tasksFromMfc
    cases h : jsTruthy (taskOfBody body)
    · simp
    · simp only [Bool.true_eq_false, if_false]
      cases structureOutcome with
      | error e => rfl
      | ok r => cases r <;> rfl

/-- Claim C8: on every failure of the remote workflow-listing call —
transport error, empty body, unparseable body, falsy parsed data, or a
parsed value whose workflows field is not an array — the workflows route
answers with the built-in fallback list, whose ids are dev-start and
hueter-dev-session. -/
theorem claim_C8 (toStr : JsVal → List Char) :
    getWorkflowsRoute toStr .transportError = fallbackWorkflows ∧
    getWorkflowsRoute toStr .parseError = fallbackWorkflows ∧
    getWorkflowsRoute toStr .emptyBody = fallbackWorkflows ∧
    (∀ v : JsVal, (∀ ws : List JsVal, jsGetPropD v "workflows" ≠ .arr ws) →
      getWorkflowsRoute toStr (.parsed v) = fallbackWorkflows) ∧
    fallbackWorkflows.map WorkflowDef.id
        = ["dev-start".toList, "hueter-dev-session".toList] := by
  refine ⟨rfl, rfl, rfl, ?_, rfl⟩
  intro v hv
  rw [getWorkflowsRoute.eq_4]
  by_cases htr : jsTruthy v = false
  · rw [if_pos htr]
  · rw [if_neg htr]
    cases hw : jsGetPropD v "workflows" <;>
      first
      | rfl
      | exact absurd hw (hv _)

/-- Witness for claim C8: a parsed response that is an empty object lacks
a workflows array, so the route answers with the fallback list. -/
theorem claim_C8_witness :
    getWorkflowsRoute (fun _ => []) (.parsed (.obj [])) = fallbackWorkflows :=
  (claim_C8 (fun _ => [])).2.2.2.1 (.obj [])
    (fun _ h => JsVal.noConfusion h)

/-- Inversion of the post-parse step: when it produces a value, that
value is the parsed one, or the parsed one with `originalTaskId` set to
the id of the task. -/
theorem injectOriginalTaskId_eq_some (task : IncomingTask) (v r : JsVal)
    (h : injectOriginalTaskId task v = some r) :
    r = v ∨ jsSetProp v "originalTaskId" (.str task.id) = some r := by
  unfold injectOriginalTaskId at h
  cases hg : jsGetProp v "originalTaskId" with
  | error e => simp [hg] at h
  | ok w =>
    simp only [hg] at h
    by_cases htr : jsTruthy w = true
    · simp only [htr, if_true] at h
      exact Or.inl (Option.some.inj h).symm
    · simp only [if_neg htr] at h
      cases hs : jsSetProp v "originalTaskId" (.str task.id) with
      | none => simp [hs] at h
      | some p =>
        simp only [hs] at h
        exact Or.inr h

/-- Claim C1 (amended): whenever the structuring operation returns a
value, that value is exactly what the external JSON parse produced from
the sanitized provider text, at most with `originalTaskId` set to the id
of the task — no validation of the StructuredHueterTask shape happens,
so a JSON text with missing or wrongly typed fields is returned as a
partially-invalid object rather than rejected. -/
theorem claim_C1 (hasClient : Bool) (jsonParse : List Char → Option JsVal)
    (completion : JsVal) (task : IncomingTask) (r : JsVal)
    (h : interpretTaskWithLio hasClient jsonParse (.ok completion) task = .ok (some r)) :
    ∃ t v, extractTextFromResponse completion = some t ∧ t ≠ [] ∧
      jsonParse (cleanJsonText t) = some v ∧
      (r = v ∨ jsSetProp v "originalTaskId" (.str task.id) = some r) := by
  cases hasClient with
  | false => simp [interpretTaskWithLio] at h
  | true =>
    cases hext : extractTextFromResponse completion with
    | none => simp [interpretTaskWithLio, hext] at h
    | some t =>
      by_cases ht : t = []
      · simp [interpretTaskWithLio, hext, ht] at h
      · cases hparse : jsonParse (cleanJsonText t) with
        | none => simp [interpretTaskWithLio, hext, ht, hparse] at h
        | some v =>
          have h2 : injectOriginalTaskId task v = some r := by
            have := h
            simp only [interpretTaskWithLio, Bool.true_eq_false, if_false,
              hext, if_neg ht, hparse, Except.ok.injEq] at this
            exact this
          exact ⟨t, v, rfl, ht, hparse, injectOriginalTaskId_eq_some task v r h2⟩

/-- Claim C1, counterexample: a provider text consisting of an empty JSON
object parses but matches none of the required fields; the structuring
operation still returns an object (with only `originalTaskId` injected)
instead of the none value. -/
theorem claim_C1_counterexample :
    interpretTaskWithLio true jsonParseEmptyObj
        (.ok (envelopeWithText emptyObjText)) sampleTask
      = .ok (some (.obj [("originalTaskId", .str sampleTask.id)])) ∧
    isStructuredHueterTask (.obj [("originalTaskId", .str sampleTask.id)]) = false := by
  exact ⟨rfl, rfl⟩

/-- Witness for claim C1 at the empty-object provider text. -/
theorem claim_C1_witness :
    ∃ t v, extractTextFromResponse (envelopeWithText emptyObjText) = some t ∧ t ≠ [] ∧
      jsonParseEmptyObj (cleanJsonText t) = some v ∧
      ((JsVal.obj [("originalTaskId", .str sampleTask.id)]) = v ∨
        jsSetProp v "originalTaskId" (.str sampleTask.id)
          = some (.obj [("originalTaskId", .str sampleTask.id)])) :=
  claim_C1 true jsonParseEmptyObj (envelopeWithText emptyObjText) sampleTask
    (.obj [("originalTaskId", .str sampleTask.id)]) rfl

/-- The value the invariant expects in `originalTaskId`: the value of the
model when it is a nonempty string, the id of the task otherwise. -/
def expectedOriginalTaskId (task : IncomingTask) (fs : List (String × JsVal)) : List Char :=
  match lookupField fs "originalTaskId" with
  | some (.str s) => if s = [] then task.id else s
  | _ => task.id

/-- Claim C2: when the provider is configured and its response carries a
nonempty text that parses to an object matching the schema (with
`originalTaskId` possibly absent), structuring succeeds with a fully
schema-valid object whose `originalTaskId` is the id of the task when the
model omitted or emptied that field, and the value of the model
otherwise. -/
theorem claim_C2 (jsonParse : List Char → Option JsVal) (completion : JsVal)
    (task : IncomingTask) (t : List Char) (fs : List (String × JsVal))
    (_hraw : task.rawText ≠ [])
    (hext : extractTextFromResponse completion = some t)
    (ht : t ≠ [])
    (hparse : jsonParse (cleanJsonText t) = some (.obj fs))
    (hschema : isSchemaExceptId (.obj fs) = true) :
    ∃ r, interpretTaskWithLio true jsonParse (.ok completion) task = .ok (some (.obj r)) ∧
      isStructuredHueterTask (.obj r) = true ∧
      lookupField r "originalTaskId" = some (.str (expectedOriginalTaskId task fs)) := by
  have hstep : interpretTaskWithLio true jsonParse (.ok completion) task
      = .ok (injectOriginalTaskId task (.obj fs)) := by
    simp [interpretTaskWithLio, hext, ht, hparse]
  simp only [isSchemaExceptId, Bool.and_eq_true] at hschema
  obtain ⟨hopt, hrest⟩ := hschema
  cases hlk : lookupField fs "originalTaskId" with
  | none =>
    have hinj : injectOriginalTaskId task (.obj fs)
        = some (.obj (setField fs "originalTaskId" (.str task.id))) := by
      unfold injectOriginalTaskId
      simp [jsGetProp, jsGetPropD, hlk, jsTruthy, jsSetProp]
    refine ⟨setField fs "originalTaskId" (.str task.id),
      by rw [hstep, hinj], isStructuredHueterTask_setField fs task.id hrest, ?_⟩
    rw [lookupField_setField_self]
    unfold expectedOriginalTaskId
    rw [hlk]
  | some w =>
    have hw : isStr w = true := by
      have := hopt
      unfold optField at this
      rw [hlk] at this
      exact this
    cases w with
    | str s =>
      by_cases hs : s = []
      · subst hs
        have hinj : injectOriginalTaskId task (.obj fs)
            = some (.obj (setField fs "originalTaskId" (.str task.id))) := by
          unfold injectOriginalTaskId
          simp [jsGetProp, jsGetPropD, hlk, jsTruthy, jsSetProp]
        refine ⟨setField fs "originalTaskId" (.str task.id),
          by rw [hstep, hinj], isStructuredHueterTask_setField fs task.id hrest, ?_⟩
        rw [lookupField_setField_self]
        unfold expectedOriginalTaskId
        rw [hlk]
        simp
      · have hinj : injectOriginalTaskId task (.obj fs) = some (.obj fs) := by
          unfold injectOriginalTaskId
          simp [jsGetProp, jsGetPropD, hlk, jsTruthy, jsSetProp, hs]
        refine ⟨fs, by rw [hstep, hinj], ?_, ?_⟩
        · simp only [isStructuredHueterTask, Bool.and_eq_true]
          exact ⟨by simp [checkField, hlk, isStr], hrest⟩
        · rw [hlk]
          unfold expectedOriginalTaskId
          rw [hlk]
          simp [hs]
    | _ => simp [isStr] at hw

/-- The field list of a fully populated structured task, with
`originalTaskId` omitted by the model. -/
def fullTaskFields : List (String × JsVal) :=
  [("goal", .str "Deployment vorbereiten".toList),
    ("contextSummary", .str "Produktionsserver".toList),
    ("knowledgeRequirements", .arr [.str "Infrastruktur".toList]),
    ("subtasks", .arr [.str "Plan schreiben".toList]),
    ("constraints", .arr []),
    ("successCriteria", .arr [.str "Deployment laeuft".toList]),
    ("priority", .str "HIGH".toList),
    ("recommendedNextStep", .str "SEND_TO_HUETER".toList),
    ("notesForHueter", .str "Keine".toList)]

/-- The JSON serialization of `fullTaskFields` as provider text. -/
def fullTaskText : List Char :=
  ("\x7b\"goal\":\"Deployment vorbereiten\",\"contextSummary\":\"Produktionsserver\"," ++
    "\"knowledgeRequirements\":[\"Infrastruktur\"],\"subtasks\":[\"Plan schreiben\"]," ++
    "\"constraints\":[],\"successCriteria\":[\"Deployment laeuft\"],\"priority\":\"HIGH\"," ++
    "\"recommendedNextStep\":\"SEND_TO_HUETER\",\"notesForHueter\":\"Keine\"\x7d").toList

/-- Models the external `JSON.parse` on the single input `fullTaskText`,
on which the real function returns the corresponding object; it throws
(`none`) on every other input. -/
def jsonParseFullTask (s : List Char) : Option JsVal :=
  if s = fullTaskText then some (.obj fullTaskFields) else none

/-- Witness for claim C2 at a fully populated provider response with
`originalTaskId` omitted. -/
theorem claim_C2_witness :
    ∃ r, interpretTaskWithLio true jsonParseFullTask
        (.ok (envelopeWithText fullTaskText)) sampleTask = .ok (some (.obj r)) ∧
      isStructuredHueterTask (.obj r) = true ∧
      lookupField r "originalTaskId"
        = some (.str (expectedOriginalTaskId sampleTask fullTaskFields)) :=
  claim_C2 jsonParseFullTask (envelopeWithText fullTaskText) sampleTask
    fullTaskText fullTaskFields (by decide) rfl (by decide) rfl (by decide)

/-- Claim C9: for every provider envelope whose first output item has a
first content item carrying the empty string as its text, the extractor
returns that empty string, and structuring returns the none value for
every client state, parse function and task: an empty model text can
never produce a structured task. -/
theorem claim_C9 (completion outv fo contv fc : JsVal)
    (h1 : jsGetProp completion "output" = .ok outv)
    (h2 : optIndex0 outv = fo)
    (h3 : jsTruthy fo = true)
    (h4 : jsGetProp fo "content" = .ok contv)
    (h5 : optIndex0 contv = fc)
    (h6 : jsTruthy fc = true)
    (h7 : jsGetProp fc "text" = .ok (.str []))
    (hasClient : Bool) (jsonParse : List Char → Option JsVal) (task : IncomingTask) :
    extractTextFromResponse completion = some [] ∧
    interpretTaskWithLio hasClient jsonParse (.ok completion) task = .ok none := by
  have hext : extractTextFromResponse completion = some [] := by
    unfold extractTextFromResponse extractTextCore
    rw [h1]
    simp only [h2, h3, h4, h5, h6, h7, Bool.true_eq_false, if_false]
  refine ⟨hext, ?_⟩
  cases hasClient with
  | false => rfl
  | true => simp [interpretTaskWithLio, hext]

/-- Witness for claim C9 at the concrete empty-text envelope. -/
theorem claim_C9_witness :
    extractTextFromResponse (envelopeWithText []) = some [] ∧
    interpretTaskWithLio true jsonParseEmptyObj
        (.ok (envelopeWithText [])) sampleTask = .ok none :=
  claim_C9 (envelopeWithText [])
    (.arr [.obj [("content", .arr [.obj [("text", .str [])]])]])
    (.obj [("content", .arr [.obj [("text", .str [])]])])
    (.arr [.obj [("text", .str [])]])
    (.obj [("text", .str [])])
    rfl rfl rfl rfl rfl rfl rfl
    true jsonParseEmptyObj sampleTask

end Bridge
